import Mathlib

/-!
# Verification of `slog_stdlog` (bidirectional `log` ↔ `slog` adapter)

Shallow embedding of `src/lib.rs`.  The crate has two translation paths:

* `log` → `slog`: the global `Logger` backend (`impl log::Log for Logger`),
  registered via `init` / `init_with_level`;
* `slog` → `log`: the `StdLog` drain (`impl slog::Drain for StdLog`), which
  flattens an event's message and key-value pairs into one string via the
  `KSV` serializer and `LazyLogString`, and re-emits it through `log`.

Rust strings and formatted values are written as bytes into an in-memory
buffer (`io::Cursor<Vec<u8>>`) and read back with `String::from_utf8_lossy`,
so the embedding models the byte buffer explicitly (bytes as `Nat < 256`)
together with a UTF-8 encoder and a lossy decoder mirroring
`String::from_utf8_lossy`.
-/

namespace SlogStdlog

/-- The five severities of the `log` crate (`log::LogLevel`). -/
inductive LogLevel
  | Error
  | Warn
  | Info
  | Debug
  | Trace
deriving DecidableEq, Repr

/-- The six severities of `slog` (`slog::Level`). -/
inductive Level
  | Critical
  | Error
  | Warning
  | Info
  | Debug
  | Trace
deriving DecidableEq, Repr

/-- Rust's `log::LogLevel::max()`: the most verbose level enabled, `Trace`. -/
def LogLevel.max : LogLevel := .Trace

/-- Embeds `fn log_to_slog_level` (src/lib.rs:64-72): forward level map,
`log` → `slog`. -/
def log_to_slog_level : LogLevel → Level
  | .Trace => .Trace
  | .Debug => .Debug
  | .Info => .Info
  | .Warn => .Warning
  | .Error => .Error

/-- The reverse level map: the `match info.level()` at the top of
`StdLog::log` (src/lib.rs:228-234), `slog` → `log`.  `Critical` and
`Error` both map to `Error`. -/
def slog_to_log_level : Level → LogLevel
  | .Critical => .Error
  | .Error => .Error
  | .Warning => .Warn
  | .Info => .Info
  | .Debug => .Debug
  | .Trace => .Trace

/-! ## Registration (`init`, `init_with_level`)

`init_with_level` (src/lib.rs:167-172) calls `log::set_logger`, the `log`
crate's global-backend registration slot. -/

/-- The error returned by `log::set_logger` on a second registration
attempt (`log::SetLoggerError`). -/
inductive SetLoggerError
  | alreadyRegistered
deriving DecidableEq, Repr

/-- Modelled from the spec: the process-wide registration slot of the
BasicLog facade (`log::set_logger` and the global `MAX_LOG_LEVEL_FILTER`
/ `LOGGER` state of the `log` crate, which live outside this repository).
`backend` is `none` while no backend is installed; once installed it
records the threshold filter set by the registered closure.  Per the
spec, the slot enforces single-writer-once semantics: the first
registration succeeds, every later one fails with the already-registered
error and leaves the installed backend untouched. -/
structure RegState where
  backend : Option LogLevel
deriving DecidableEq, Repr

/-- Modelled from the spec: `log::set_logger` applied with the closure
that `init_with_level` passes (`max_log_level.set(level.to_log_level_filter());
Box::new(Logger)`, src/lib.rs:168-171).  Returns the new registration
state together with the result of the call. -/
def set_logger (st : RegState) (level : LogLevel) :
    RegState × Except SetLoggerError Unit :=
  match st.backend with
  | some _ => (st, .error .alreadyRegistered)
  | none => ({ backend := some level }, .ok ())

/-- Embeds `pub fn init_with_level` (src/lib.rs:167-172). -/
def init_with_level (st : RegState) (level : LogLevel) :
    RegState × Except SetLoggerError Unit :=
  set_logger st level

/-- Embeds `pub fn init` (src/lib.rs:132-134): `init_with_level(log::LogLevel::max())`. -/
def init (st : RegState) : RegState × Except SetLoggerError Unit :=
  init_with_level st LogLevel.max

/-! ## Bytes, UTF-8 encoding, and `String::from_utf8_lossy`

The drain writes formatted text as UTF-8 bytes into an in-memory
`io::Cursor<Vec<u8>>` buffer and reads the accumulated bytes back with
`String::from_utf8_lossy` (src/lib.rs:220).  Bytes are modelled as `Nat`
(values below 256 in every reachable state).  `utf8EncodeChar` is the
UTF-8 encoding of a Unicode scalar value, as produced by Rust's `write!`
for string data; `utf8DecodeLossy` is `String::from_utf8_lossy`'s
decoding, replacing invalid sequences by U+FFFD following the maximal-subpart
substitution used by Rust's UTF-8 validator. -/

/-- U+FFFD REPLACEMENT CHARACTER, substituted for invalid sequences. -/
def repChar : Char := Char.ofNat 0xFFFD

/-- UTF-8 encoding of a Unicode scalar value `n` (as a list of bytes). -/
def utf8EncodeChar (n : Nat) : List Nat :=
  if n < 0x80 then [n]
  else if n < 0x800 then [0xC0 + n / 64, 0x80 + n % 64]
  else if n < 0x10000 then [0xE0 + n / 4096, 0x80 + n / 64 % 64, 0x80 + n % 64]
  else [0xF0 + n / 262144, 0x80 + n / 4096 % 64, 0x80 + n / 64 % 64, 0x80 + n % 64]

/-- The UTF-8 bytes a Rust `write!` emits for string `s`. -/
def strBytes (s : String) : List Nat :=
  (s.data.map fun c => utf8EncodeChar c.toNat).flatten

/-- Decode one scalar (or one replacement character) from byte `b0`
followed by bytes `t`, returning the character and the total number of
bytes consumed (at least 1).  Mirrors Rust's `run_utf8_validation`
byte-class table and its error lengths, which drive the
maximal-subpart replacement of `String::from_utf8_lossy`. -/
def decodeOne (b0 : Nat) (t : List Nat) : Char × Nat :=
  if b0 < 0x80 then (Char.ofNat b0, 1)
  else if b0 < 0xC2 then (repChar, 1)
  else if b0 < 0xE0 then
    if 0x80 ≤ t.getD 0 0 ∧ t.getD 0 0 < 0xC0 then
      (Char.ofNat ((b0 - 0xC0) * 64 + (t.getD 0 0 - 0x80)), 2)
    else (repChar, 1)
  else if b0 < 0xF0 then
    if (if b0 = 0xE0 then 0xA0 else 0x80) ≤ t.getD 0 0 ∧
        t.getD 0 0 < (if b0 = 0xED then 0xA0 else 0xC0) then
      if 0x80 ≤ t.getD 1 0 ∧ t.getD 1 0 < 0xC0 then
        (Char.ofNat ((b0 - 0xE0) * 4096 + (t.getD 0 0 - 0x80) * 64 + (t.getD 1 0 - 0x80)), 3)
      else (repChar, 2)
    else (repChar, 1)
  else if b0 < 0xF5 then
    if (if b0 = 0xF0 then 0x90 else 0x80) ≤ t.getD 0 0 ∧
        t.getD 0 0 < (if b0 = 0xF4 then 0x90 else 0xC0) then
      if 0x80 ≤ t.getD 1 0 ∧ t.getD 1 0 < 0xC0 then
        if 0x80 ≤ t.getD 2 0 ∧ t.getD 2 0 < 0xC0 then
          (Char.ofNat ((b0 - 0xF0) * 262144 + (t.getD 0 0 - 0x80) * 4096 +
            (t.getD 1 0 - 0x80) * 64 + (t.getD 2 0 - 0x80)), 4)
        else (repChar, 3)
      else (repChar, 2)
    else (repChar, 1)
  else (repChar, 1)

/-- Fuel-indexed decoding loop: decode one scalar or replacement, drop
the consumed bytes, repeat.  `decodeOne` consumes at least one byte, so
fuel `bs.length` always suffices. -/
def utf8DecodeLossyFuel : Nat → List Nat → List Char
  | 0, _ => []
  | _, [] => []
  | fuel + 1, b0 :: t0 =>
    (decodeOne b0 t0).1 :: utf8DecodeLossyFuel fuel (t0.drop ((decodeOne b0 t0).2 - 1))

/-- The character sequence `String::from_utf8_lossy` produces from a byte
sequence. -/
def utf8DecodeLossy (bs : List Nat) : List Char :=
  utf8DecodeLossyFuel bs.length bs

/-- Rust's `String::from_utf8_lossy` (src/lib.rs:220) as a `String`-producing
function on byte lists. -/
def from_utf8_lossy (bs : List Nat) : String :=
  String.mk (utf8DecodeLossy bs)

/-! ## The KSV serializer and `LazyLogString`

`KSV` (src/lib.rs:256-276) is the Key-Separator-Value serializer: its
`emit_arguments` appends `, {key}: {value}` to the underlying writer (an
in-memory `io::Cursor<Vec<u8>>`, against which writes cannot fail).
`LazyLogString::fmt` (src/lib.rs:201-222) drives it: it first writes the
record's message to the formatter, then serializes the logger values and
the record's own key-value pairs through a `KSV`, mapping any
serialization error to `fmt::Error`, and finally writes the
lossily-decoded buffer. -/

/-- One key-value item as the serialization pipeline presents it to the
`KSV` serializer: either a pair (the key string together with the bytes
its formatted value writes), or an item whose serialization returns an
error (`slog::KV::serialize` is fallible). -/
inductive KVItem
  | pair (key : String) (val : List Nat)
  | err
deriving DecidableEq, Repr

/-- Embeds `KSV::emit_arguments` (src/lib.rs:272-275): the bytes
`write!(self.io, ", {}: {}", key, val)` appends to the buffer. -/
def ksvEmit (key : String) (val : List Nat) : List Nat :=
  strBytes ", " ++ strBytes key ++ strBytes ": " ++ val

/-- Serializing a sequence of key-value items through a `KSV` holding
buffer `buf`: each pair appends `, key: value`; an erroring item aborts
with the error (`try!` in `emit_arguments` / the serialize closure). -/
def serializeKV : List KVItem → List Nat → Except Unit (List Nat)
  | [], buf => .ok buf
  | .pair k v :: items, buf => serializeKV items (buf ++ ksvEmit k v)
  | .err :: _, _ => .error ()

/-- The two `try!`-chained serialize calls of `LazyLogString::fmt`
(src/lib.rs:210-211): logger values first, then the record's own
key-value pairs, into one shared `KSV` buffer. -/
def serializeAll (logger_values kv : List KVItem) : Except Unit (List Nat) :=
  match serializeKV logger_values [] with
  | .error e => .error e
  | .ok b1 => serializeKV kv b1

/-- Embeds `slog::Record` as consumed by this crate: severity, tag, call-site
location (module/file/line/column/function), lazily-rendered message,
and the call-site key-value group. -/
structure Record where
  level : Level
  tag : String
  module : String
  file : String
  line : Nat
  column : Nat
  function : String
  msg : String
  kv : List KVItem
deriving DecidableEq, Repr

/-- Embeds `struct LazyLogString` (src/lib.rs:187-190): a record together with
the logger-values (ancestor) key-value items. -/
structure LazyLogString where
  info : Record
  logger_values : List KVItem
deriving DecidableEq, Repr

/-- Embeds `impl fmt::Display for LazyLogString` (src/lib.rs:201-222).  Returns
the text written to the formatter together with the success flag of the
`fmt` call: the message is written first; a serialization error is
mapped to `fmt::Error` and propagated (leaving only the message
written); on success the byte buffer is decoded with
`String::from_utf8_lossy` and appended. -/
def LazyLogString.fmt (l : LazyLogString) : String × Bool :=
  match serializeAll l.logger_values l.info.kv with
  | .error _ => (l.info.msg, false)
  | .ok buf => (l.info.msg ++ from_utf8_lossy buf, true)

/-! ## The `StdLog` drain (`slog` → `log`) -/

/-- Embeds `log::LogLocation` (the `location` built at src/lib.rs:241-245): the
`log` crate's call-site record.  It has no column or function fields. -/
structure LogLocation where
  __module_path : String
  __file : String
  __line : Nat
deriving DecidableEq, Repr

/-- Embeds `io::Error`, the declared error type of the `StdLog` drain. -/
inductive IOError
  | ioError
deriving DecidableEq, Repr

/-- One `log` record as emitted through `log::__log` (src/lib.rs:250):
level, target, location, and the text the lazily-formatted arguments
render to (together with the render success flag). -/
structure EmittedLog where
  level : LogLevel
  target : String
  location : LogLocation
  message : String × Bool
deriving DecidableEq, Repr

/-- Embeds `impl slog::Drain for StdLog`, `fn log` (src/lib.rs:227-253):
map the severity, resolve the target (tag if non-empty, else module),
rebuild the location from the record's module/file/line, emit exactly
one `log` record carrying the lazily-flattened message, and return
`Ok(())`.  The first component lists the `log::__log` emissions in
order; the second is the drain's return value. -/
def StdLog.log (info : Record) (logger_values : List KVItem) :
    List EmittedLog × Except IOError Unit :=
  ([{ level := slog_to_log_level info.level
      target := if info.tag.isEmpty then info.module else info.tag
      location := { __module_path := info.module, __file := info.file, __line := info.line }
      message := LazyLogString.fmt { info := info, logger_values := logger_values } }],
   .ok ())

/-! ## The `Logger` backend (`log` → `slog`) -/

/-- Embeds `log::LogRecord` as read by `Logger::log` (src/lib.rs:79-86): level,
target, and the location's module path, file and line, plus the message
arguments (their rendered text). -/
structure LogRecord where
  level : LogLevel
  target : String
  module_path : String
  file : String
  line : Nat
  args : String
deriving DecidableEq, Repr

/-- Embeds `impl log::Log for Logger`, `fn log` (src/lib.rs:79-100): the
`slog::Record` handed to `slog_scope::with_logger`'s logger, built from
a `log::LogRecord`: mapped level, target as tag, file/line/module copied,
column 0, empty function name, the original arguments as message, and
the empty key-value group `b!()`. -/
def Logger.log (r : LogRecord) : Record :=
  { level := log_to_slog_level r.level
    tag := r.target
    module := r.module_path
    file := r.file
    line := r.line
    column := 0
    function := ""
    msg := r.args
    kv := [] }

/-! ## Spec-side flattening description (for the refinement claims) -/

/-- The spec's description of the flattened key-value suffix: every pair
serialized as `, key: value` and appended in encounter order. -/
def flattenStr : List (String × String) → String
  | [] => ""
  | p :: ps => ", " ++ p.1 ++ ": " ++ p.2 ++ flattenStr ps

/-- Key-value items whose formatted values are given strings (the bytes
a Rust `write!` of those strings produces). -/
def strPairs (ps : List (String × String)) : List KVItem :=
  ps.map fun p => .pair p.1 (strBytes p.2)

/-! ## Helper lemmas: UTF-8 round trip -/

theorem utf8DecodeLossyFuel_congr (f : Nat) :
    ∀ (g : Nat) (bs : List Nat), bs.length ≤ f → bs.length ≤ g →
      utf8DecodeLossyFuel f bs = utf8DecodeLossyFuel g bs := by
  induction f with
  | zero =>
    intro g bs hf _
    have : bs = [] := List.eq_nil_of_length_eq_zero (by omega)
    subst this
    cases g <;> rfl
  | succ f ih =>
    intro g bs hf hg
    match bs with
    | [] => cases g <;> rfl
    | b0 :: t0 =>
      match g with
      | g' + 1 =>
        rw [utf8DecodeLossyFuel, utf8DecodeLossyFuel]
        have hd : (t0.drop ((decodeOne b0 t0).2 - 1)).length ≤ t0.length := by
          rw [List.length_drop]; omega
        rw [ih g' (t0.drop ((decodeOne b0 t0).2 - 1))
          (by simp at hf; omega) (by simp at hg; omega)]

theorem utf8DecodeLossy_cons (b0 : Nat) (l : List Nat) :
    utf8DecodeLossy (b0 :: l) =
      (decodeOne b0 l).1 :: utf8DecodeLossy (l.drop ((decodeOne b0 l).2 - 1)) := by
  unfold utf8DecodeLossy
  rw [List.length_cons, utf8DecodeLossyFuel]
  rw [utf8DecodeLossyFuel_congr l.length ((l.drop ((decodeOne b0 l).2 - 1)).length)
    (l.drop ((decodeOne b0 l).2 - 1)) (by rw [List.length_drop]; omega) (le_refl _)]

theorem decodeOne_ascii (n : Nat) (h : n < 0x80) (t : List Nat) :
    decodeOne n t = (Char.ofNat n, 1) := by
  unfold decodeOne
  rw [if_pos h]

theorem decodeOne_two (n : Nat) (h1 : 0x80 ≤ n) (h2 : n < 0x800) (rest : List Nat) :
    decodeOne (0xC0 + n / 64) ((0x80 + n % 64) :: rest) = (Char.ofNat n, 2) := by
  unfold decodeOne
  simp only [List.getD_cons_zero]
  split_ifs <;> first
    | rw [show (0xC0 + n / 64 - 0xC0) * 64 + (0x80 + n % 64 - 0x80) = n from by omega]
    | (exfalso; omega)

theorem decodeOne_three (n : Nat) (h1 : 0x800 ≤ n) (h2 : n < 0x10000)
    (hs : n < 0xD800 ∨ 0xDFFF < n) (rest : List Nat) :
    decodeOne (0xE0 + n / 4096) ((0x80 + n / 64 % 64) :: (0x80 + n % 64) :: rest) =
      (Char.ofNat n, 3) := by
  unfold decodeOne
  simp only [List.getD_cons_zero, List.getD_cons_succ]
  split_ifs <;> first
    | rw [show (0xE0 + n / 4096 - 0xE0) * 4096 + (0x80 + n / 64 % 64 - 0x80) * 64 +
          (0x80 + n % 64 - 0x80) = n from by omega]
    | (exfalso; omega)

theorem decodeOne_four (n : Nat) (h1 : 0x10000 ≤ n) (h2 : n < 0x110000) (rest : List Nat) :
    decodeOne (0xF0 + n / 262144)
      ((0x80 + n / 4096 % 64) :: (0x80 + n / 64 % 64) :: (0x80 + n % 64) :: rest) =
      (Char.ofNat n, 4) := by
  unfold decodeOne
  simp only [List.getD_cons_zero, List.getD_cons_succ]
  split_ifs <;> first
    | rw [show (0xF0 + n / 262144 - 0xF0) * 262144 + (0x80 + n / 4096 % 64 - 0x80) * 4096 +
          (0x80 + n / 64 % 64 - 0x80) * 64 + (0x80 + n % 64 - 0x80) = n from by omega]
    | (exfalso; omega)

theorem utf8DecodeLossy_encodeChar (c : Char) (rest : List Nat) :
    utf8DecodeLossy (utf8EncodeChar c.toNat ++ rest) = c :: utf8DecodeLossy rest := by
  have hv : c.toNat < 0xD800 ∨ (0xDFFF < c.toNat ∧ c.toNat < 0x110000) := c.valid
  by_cases h1 : c.toNat < 0x80
  · have he : utf8EncodeChar c.toNat = [c.toNat] := by
      unfold utf8EncodeChar; rw [if_pos h1]
    rw [he, List.cons_append, List.nil_append, utf8DecodeLossy_cons,
      decodeOne_ascii c.toNat h1]
    simp [Char.ofNat_toNat]
  · by_cases h2 : c.toNat < 0x800
    · have he : utf8EncodeChar c.toNat = [0xC0 + c.toNat / 64, 0x80 + c.toNat % 64] := by
        unfold utf8EncodeChar; rw [if_neg h1, if_pos h2]
      rw [he]
      simp only [List.cons_append, List.nil_append]
      rw [utf8DecodeLossy_cons, decodeOne_two c.toNat (by omega) h2]
      simp [Char.ofNat_toNat]
    · by_cases h3 : c.toNat < 0x10000
      · have he : utf8EncodeChar c.toNat =
            [0xE0 + c.toNat / 4096, 0x80 + c.toNat / 64 % 64, 0x80 + c.toNat % 64] := by
          unfold utf8EncodeChar; rw [if_neg h1, if_neg h2, if_pos h3]
        rw [he]
        simp only [List.cons_append, List.nil_append]
        rw [utf8DecodeLossy_cons, decodeOne_three c.toNat (by omega) h3 (by omega)]
        simp [Char.ofNat_toNat]
      · have he : utf8EncodeChar c.toNat =
            [0xF0 + c.toNat / 262144, 0x80 + c.toNat / 4096 % 64,
              0x80 + c.toNat / 64 % 64, 0x80 + c.toNat % 64] := by
          unfold utf8EncodeChar; rw [if_neg h1, if_neg h2, if_neg h3]
        rw [he]
        simp only [List.cons_append, List.nil_append]
        rw [utf8DecodeLossy_cons, decodeOne_four c.toNat (by omega) (by omega)]
        simp [Char.ofNat_toNat]

theorem utf8DecodeLossy_encodeList (cs : List Char) :
    utf8DecodeLossy ((cs.map fun c => utf8EncodeChar c.toNat).flatten) = cs := by
  induction cs with
  | nil => rfl
  | cons c cs ih =>
    rw [List.map_cons, List.flatten_cons]
    have := utf8DecodeLossy_encodeChar c ((cs.map fun c => utf8EncodeChar c.toNat).flatten)
    rw [this, ih]

theorem from_utf8_lossy_strBytes (s : String) : from_utf8_lossy (strBytes s) = s := by
  unfold from_utf8_lossy strBytes
  rw [utf8DecodeLossy_encodeList]

theorem strBytes_append (a b : String) : strBytes (a ++ b) = strBytes a ++ strBytes b := by
  unfold strBytes
  rw [String.data_append, List.map_append, List.flatten_append]

/-! ## Helper lemmas: KSV serialization -/

theorem ksvEmit_str (k v : String) :
    ksvEmit k (strBytes v) = strBytes (", " ++ k ++ ": " ++ v) := by
  unfold ksvEmit
  rw [strBytes_append, strBytes_append, strBytes_append]

theorem flattenStr_append (a b : List (String × String)) :
    flattenStr (a ++ b) = flattenStr a ++ flattenStr b := by
  induction a with
  | nil => simp [flattenStr]
  | cons p ps ih =>
    rw [List.cons_append, flattenStr, flattenStr, ih]
    simp [String.append_assoc]

theorem serializeKV_strPairs (ps : List (String × String)) (buf : List Nat) :
    serializeKV (strPairs ps) buf = .ok (buf ++ strBytes (flattenStr ps)) := by
  induction ps generalizing buf with
  | nil =>
    show Except.ok buf = _
    rw [show flattenStr [] = "" from rfl, show strBytes "" = [] from rfl, List.append_nil]
  | cons p ps ih =>
    show serializeKV (strPairs ps) (buf ++ ksvEmit p.1 (strBytes p.2)) = _
    rw [ih]
    simp only [ksvEmit, flattenStr, strBytes_append, List.append_assoc]

theorem serializeAll_strPairs (g own : List (String × String)) :
    serializeAll (strPairs g) (strPairs own) = .ok (strBytes (flattenStr (g ++ own))) := by
  unfold serializeAll
  rw [serializeKV_strPairs]
  show serializeKV (strPairs own) ([] ++ strBytes (flattenStr g)) = _
  rw [serializeKV_strPairs, List.nil_append, flattenStr_append, strBytes_append]

theorem serializeKV_of_not_err (items : List KVItem) (h : KVItem.err ∉ items) :
    ∀ buf : List Nat, ∃ b, serializeKV items buf = .ok b := by
  induction items with
  | nil => exact fun buf => ⟨buf, rfl⟩
  | cons i items ih =>
    intro buf
    match i with
    | .pair k v =>
      have h' : KVItem.err ∉ items := fun hm => h (List.mem_cons_of_mem _ hm)
      exact ih h' (buf ++ ksvEmit k v)
    | .err => exact absurd (List.mem_cons_self _ _) h

/-! ## Claim theorems -/

/-- C1: For every event, the flattened message is exactly the rendered
message template followed by every key-value pair serialized as
`, key: value` in encounter order — ancestor/logger-values groups first,
then the event's own call-site group — with no escaping of delimiter
characters inside keys or values; in particular, for ancestor groups
`[{a:1},{b:2}]`, call-site group `{c:3}` and message "hello", the output
is exactly `hello, a: 1, b: 2, c: 3`. -/
theorem flattening_exact :
    (∀ (level : Level) (tag mod file : String) (line col : Nat)
        (func msg : String) (groups : List (List (String × String)))
        (own : List (String × String)),
      LazyLogString.fmt
          ⟨⟨level, tag, mod, file, line, col, func, msg, strPairs own⟩,
            strPairs groups.flatten⟩ =
        (msg ++ flattenStr (groups.flatten ++ own), true)) ∧
    LazyLogString.fmt
        ⟨⟨.Info, "", "mod", "f", 1, 0, "", "hello", strPairs [("c", "3")]⟩,
          strPairs ([[("a", "1")], [("b", "2")]].flatten)⟩ =
      ("hello, a: 1, b: 2, c: 3", true) := by
  have hgen : ∀ (level : Level) (tag mod file : String) (line col : Nat)
      (func msg : String) (groups : List (List (String × String)))
      (own : List (String × String)),
      LazyLogString.fmt
          ⟨⟨level, tag, mod, file, line, col, func, msg, strPairs own⟩,
            strPairs groups.flatten⟩ =
        (msg ++ flattenStr (groups.flatten ++ own), true) := by
    intro level tag mod file line col func msg groups own
    unfold LazyLogString.fmt
    show (match serializeAll (strPairs groups.flatten) (strPairs own) with
      | .error _ => (msg, false)
      | .ok buf => (msg ++ from_utf8_lossy buf, true)) = _
    rw [serializeAll_strPairs]
    show (msg ++ from_utf8_lossy (strBytes (flattenStr (groups.flatten ++ own))), true) = _
    rw [from_utf8_lossy_strBytes]
  refine ⟨hgen, ?_⟩
  have h := hgen .Info "" "mod" "f" 1 0 "" "hello" [[("a", "1")], [("b", "2")]] [("c", "3")]
  rw [h]
  decide

/-- C2: For every one of the five BasicLog levels, mapping it to a
StructLog severity via the forward level map and then back via the
reverse level map yields the original level (Warn round-trips through
Warning). -/
theorem level_roundtrip_basic (l : LogLevel) :
    slog_to_log_level (log_to_slog_level l) = l ∧
    log_to_slog_level LogLevel.Warn = Level.Warning := by
  cases l <;> exact ⟨rfl, rfl⟩

/-- C3: For every StructLog severity except Critical, mapping it to a
BasicLog level via the reverse level map and then back via the forward
level map yields the original severity; for Critical, this round trip
yields Error (the documented lossy collapse). -/
theorem severity_roundtrip_struct :
    (∀ s : Level, s ≠ .Critical → log_to_slog_level (slog_to_log_level s) = s) ∧
    log_to_slog_level (slog_to_log_level .Critical) = .Error := by
  refine ⟨?_, rfl⟩
  intro s hs
  cases s
  · exact absurd rfl hs
  all_goals rfl

/-- Witness for C3 at `Warning` (and the `Critical` collapse). -/
theorem severity_roundtrip_struct_witness :
    (Level.Warning ≠ Level.Critical ∧
      log_to_slog_level (slog_to_log_level .Warning) = .Warning) ∧
    log_to_slog_level (slog_to_log_level .Critical) = .Error :=
  ⟨⟨by decide, severity_roundtrip_struct.1 .Warning (by decide)⟩,
    severity_roundtrip_struct.2⟩

/-- C4: For every event processed by the StructLog-to-BasicLog drain,
the resolved target label equals the event's explicit tag when the tag
is non-empty, and equals the event's originating module path when the
tag is empty. -/
theorem target_resolution (info : Record) (lv : List KVItem) :
    (info.tag ≠ "" → (StdLog.log info lv).1.map EmittedLog.target = [info.tag]) ∧
    (info.tag = "" → (StdLog.log info lv).1.map EmittedLog.target = [info.module]) := by
  constructor
  · intro h
    simp only [StdLog.log, List.map_cons, List.map_nil]
    rw [if_neg (by simp [String.isEmpty_iff, h])]
  · intro h
    simp only [StdLog.log, List.map_cons, List.map_nil]
    rw [if_pos (by simp [String.isEmpty_iff, h])]

/-- Witness for C4: non-empty tag "svc" resolves to "svc"; empty tag
with module "pkg::mod" resolves to "pkg::mod". -/
theorem target_resolution_witness :
    (StdLog.log ⟨.Debug, "svc", "pkg::mod", "f", 1, 0, "", "m", []⟩ []).1.map
        EmittedLog.target = ["svc"] ∧
    (StdLog.log ⟨.Debug, "", "pkg::mod", "f", 1, 0, "", "m", []⟩ []).1.map
        EmittedLog.target = ["pkg::mod"] :=
  ⟨(target_resolution ⟨.Debug, "svc", "pkg::mod", "f", 1, 0, "", "m", []⟩ []).1 (by decide),
    (target_resolution ⟨.Debug, "", "pkg::mod", "f", 1, 0, "", "m", []⟩ []).2 rfl⟩

/-- C5: For every BasicLog call received by the BasicLog-to-StructLog
backend, the StructLog event it constructs carries the level mapped via
the forward level map, the caller's target label as tag, the caller's
file, line and module with column 0 and function name empty, the
original message template/args, and an empty key-value group. -/
theorem basic_to_struct_event (r : LogRecord) :
    (Logger.log r).level = log_to_slog_level r.level ∧
    (Logger.log r).tag = r.target ∧
    (Logger.log r).file = r.file ∧
    (Logger.log r).line = r.line ∧
    (Logger.log r).module = r.module_path ∧
    (Logger.log r).column = 0 ∧
    (Logger.log r).function = "" ∧
    (Logger.log r).msg = r.args ∧
    (Logger.log r).kv = [] :=
  ⟨rfl, rfl, rfl, rfl, rfl, rfl, rfl, rfl, rfl⟩

/-- C6: For every event processed by the StructLog-to-BasicLog drain,
exactly one BasicLog record is emitted, at the mapped level and resolved
target, with a call-site location whose module, file and line are copied
verbatim from the event (`log::LogLocation` has no column or function
fields, so those are dropped — not representable on the BasicLog
side). -/
theorem drain_emits_one (info : Record) (lv : List KVItem) :
    (StdLog.log info lv).1.length = 1 ∧
    ∀ e ∈ (StdLog.log info lv).1,
      e.level = slog_to_log_level info.level ∧
      e.target = (if info.tag = "" then info.module else info.tag) ∧
      e.location.__module_path = info.module ∧
      e.location.__file = info.file ∧
      e.location.__line = info.line := by
  refine ⟨rfl, ?_⟩
  intro e he
  simp only [StdLog.log, List.mem_singleton] at he
  subst he
  refine ⟨rfl, ?_, rfl, rfl, rfl⟩
  by_cases h : info.tag = ""
  · have h' : info.tag.isEmpty = true := by rw [String.isEmpty_iff]; exact h
    rw [if_pos h, if_pos h']
  · have h' : ¬info.tag.isEmpty = true := by rw [String.isEmpty_iff]; exact h
    rw [if_neg h, if_neg h']

/-- Witness for C6 at a concrete `Critical` event with tag "t". -/
theorem drain_emits_one_witness :
    LogLevel.Error = slog_to_log_level Level.Critical ∧
    "t" = (if ("t" : String) = "" then "mod" else "t") ∧
    "mod" = "mod" ∧ "file" = "file" ∧ (7 : Nat) = 7 :=
  (drain_emits_one ⟨.Critical, "t", "mod", "file", 7, 0, "", "m", []⟩ []).2
    ⟨.Error, "t", ⟨"mod", "file", 7⟩, ("m", true)⟩ (by decide)

/-- C7: For every record and every logger-values list, the
StructLog-to-BasicLog drain's log operation returns `Ok(())`; its
declared I/O error type is never populated with an error. -/
theorem drain_returns_ok (info : Record) (lv : List KVItem) :
    (StdLog.log info lv).2 = Except.ok () :=
  rfl

/-- C8: For every event, invalid (non-UTF-8) byte sequences produced
while flattening values are replaced lossily (via
`String::from_utf8_lossy`) in the resulting display string; an invalid
encoding in a value never causes the flattening to surface an error or
drop the message. -/
theorem flatten_lossy (l : LazyLogString)
    (h1 : KVItem.err ∉ l.logger_values) (h2 : KVItem.err ∉ l.info.kv) :
    l.fmt.2 = true ∧
    l.fmt.1 = l.info.msg ++
      from_utf8_lossy ((serializeAll l.logger_values l.info.kv).toOption.getD []) := by
  obtain ⟨b1, hb1⟩ := serializeKV_of_not_err l.logger_values h1 []
  obtain ⟨b2, hb2⟩ := serializeKV_of_not_err l.info.kv h2 b1
  have hall : serializeAll l.logger_values l.info.kv = .ok b2 := by
    unfold serializeAll
    rw [hb1]
    exact hb2
  have hf : l.fmt = (l.info.msg ++ from_utf8_lossy b2, true) := by
    unfold LazyLogString.fmt
    rw [hall]
  rw [hf, hall]
  exact ⟨rfl, rfl⟩

/-- Witness for C8: a value whose bytes are the invalid sequence `[0xFF]`
is rendered as U+FFFD; the message survives and no error is raised. -/
theorem flatten_lossy_witness :
    (LazyLogString.fmt ⟨⟨.Info, "", "mod", "f", 1, 0, "", "msg", [.pair "k" [0xFF]]⟩,
      []⟩).2 = true ∧
    LazyLogString.fmt ⟨⟨.Info, "", "mod", "f", 1, 0, "", "msg", [.pair "k" [0xFF]]⟩,
      []⟩ = ("msg, k: �", true) :=
  ⟨(flatten_lossy ⟨⟨.Info, "", "mod", "f", 1, 0, "", "msg", [.pair "k" [0xFF]]⟩, []⟩
      (by decide) (by decide)).1,
    by decide⟩

/-- C9: The first registration call succeeds, and every subsequent
registration attempt (with any threshold) fails with the
already-registered error while leaving the first-registered backend
active (the registration state is unchanged) and its logging
unaffected. -/
theorem registration_singleton :
    (∀ level : LogLevel, (init_with_level ⟨none⟩ level).2 = .ok ()) ∧
    (∀ (st : RegState) (level : LogLevel), st.backend.isSome →
      (init_with_level st level).2 = .error .alreadyRegistered ∧
      (init_with_level st level).1 = st) := by
  constructor
  · intro level; rfl
  · intro st level h
    match hst : st.backend with
    | some l =>
      constructor
      · show (set_logger st level).2 = _
        unfold set_logger
        rw [hst]
      · show (set_logger st level).1 = _
        unfold set_logger
        rw [hst]
    | none => rw [hst] at h; cases h

/-- Witness for C9: `register(Info)` succeeds from the empty state; a
second attempt with threshold `Error` fails and leaves the state
unchanged. -/
theorem registration_singleton_witness :
    (init_with_level ⟨none⟩ .Info).2 = .ok () ∧
    ((init_with_level ⟨some .Info⟩ .Error).2 = .error .alreadyRegistered ∧
      (init_with_level ⟨some .Info⟩ .Error).1 = ⟨some .Info⟩) :=
  ⟨registration_singleton.1 .Info,
    registration_singleton.2 ⟨some .Info⟩ .Error (by decide)⟩

/-- C10: When the flattened message is rendered, the message template is
written to the formatter before any key-value pair (the output always
extends the message); and if serializing the logger values or the
record's own key-value pairs returns an error, the rendering returns a
formatting error (the fault propagates out of the Display
implementation, leaving only the message written) instead of being
swallowed. -/
theorem fmt_msg_first_err (l : LazyLogString) :
    (∃ t, l.fmt.1 = l.info.msg ++ t) ∧
    (∀ e, serializeAll l.logger_values l.info.kv = .error e →
      l.fmt = (l.info.msg, false)) := by
  cases h : serializeAll l.logger_values l.info.kv with
  | error e =>
    have hf : l.fmt = (l.info.msg, false) := by
      unfold LazyLogString.fmt
      rw [h]
    refine ⟨⟨"", ?_⟩, fun _ _ => hf⟩
    rw [hf, String.append_empty]
  | ok buf =>
    have hf : l.fmt = (l.info.msg ++ from_utf8_lossy buf, true) := by
      unfold LazyLogString.fmt
      rw [h]
    refine ⟨⟨from_utf8_lossy buf, by rw [hf]⟩, ?_⟩
    intro e he
    exact Except.noConfusion he

/-- Witness for C10: a record whose own key-value group errors during
serialization makes `fmt` return just the message and a failure flag. -/
theorem fmt_msg_first_err_witness :
    LazyLogString.fmt ⟨⟨.Info, "", "mod", "f", 1, 0, "", "msg", [.err]⟩, []⟩ =
      ("msg", false) :=
  (fmt_msg_first_err ⟨⟨.Info, "", "mod", "f", 1, 0, "", "msg", [.err]⟩, []⟩).2 () rfl

end SlogStdlog
